import Mathlib

/-!
Verification development for the sol-seek repository (single source file
`jupiter.py`).  The program fetches crypto asset records, normalizes them
(dropping malformed entries and stablecoins), computes per-asset metrics
(potential gain, 7-day price change, market-cap/volume value), filters by
user thresholds, ranks top-30 by three metrics, and computes consensus sets.

Numeric fields are modelled as rationals; raw records carry `Option` fields
to model Python dictionaries with possibly missing keys.
-/

namespace SolSeek

/-- A raw asset record as delivered by the data source: a keyed record whose
fields may individually be absent (a Python dict missing keys).
Field names follow the schema of `jupiter.py` lines 68-74. -/
structure RawToken where
  name : Option String
  symbol : Option String
  current_price : Option ℚ
  ath : Option ℚ
  total_volume : Option ℚ
  market_cap : Option ℚ
  price_change_7d : Option ℚ
deriving DecidableEq

/-- An entry of the API response: either not a dictionary at all (`malformed`)
or a keyed record.  Mirrors the `isinstance(token, dict)` check of
`jupiter.py` line 31. -/
inductive RawEntry where
  | malformed : RawEntry
  | record : RawToken → RawEntry
deriving DecidableEq

/-- The fixed stablecoin exclusion list of `jupiter.py` line 28. -/
def stablecoins : List String := ["usdt", "usdc", "dai", "busd", "ust"]

/-- The per-entry keep condition of the list comprehension at `jupiter.py`
lines 29-32: the entry is a dictionary, has a `symbol` key, and that symbol
(compared verbatim, no case folding in the source) is not in `stablecoins`. -/
def isKept : RawEntry → Bool
  | RawEntry.malformed => false
  | RawEntry.record t =>
    match t.symbol with
    | none => false
    | some s => decide (s ∉ stablecoins)

/-- The normalization step of `get_top_tokens` (`jupiter.py` lines 29-32):
keep exactly the entries satisfying `isKept`. -/
def filtered_tokens (entries : List RawEntry) : List RawEntry :=
  entries.filter isKept

/-- `calculate_potential_gains` from `jupiter.py` lines 39-42:
`ath_price / current_price` when `current_price > 0`, else `0`. -/
def calculate_potential_gains (current_price ath_price : ℚ) : ℚ :=
  if current_price > 0 then ath_price / current_price else 0

/-- The market-cap/volume metric computed inline at `jupiter.py` line 75:
`market_cap / volume if volume > 0 else 0`. -/
def mc_vol_metric (market_cap volume : ℚ) : ℚ :=
  if volume > 0 then market_cap / volume else 0

/-- The error raised when a required key is absent from a record that reached
metric computation (a Python `KeyError` at `jupiter.py` lines 68-74; the spec
names this failure `MissingFieldError`). -/
inductive MissingFieldError where
  | keyError : String → MissingFieldError
deriving DecidableEq

/-- A fully scored row as appended to `results` at `jupiter.py` lines 82-92,
together with the `Token` display column added at line 102.
`symbol` stores the upper-cased symbol (line 84). -/
structure ScoredRow where
  tokenName : String
  symbol : String
  current_price : ℚ
  ath : ℚ
  potential_gains : ℚ
  market_cap : ℚ
  volume : ℚ
  price_change_7d : ℚ
  mcVolMetric : ℚ
deriving DecidableEq

/-- The per-token body of the processing loop, `jupiter.py` lines 67-78:
sequential key accesses (the first absent key raises a `KeyError`), then the
two metric computations.  The `symbol` is upper-cased as in line 84. -/
def processToken (t : RawToken) : Except MissingFieldError ScoredRow :=
  match t.name with
  | none => Except.error (MissingFieldError.keyError "name")
  | some token_name =>
  match t.symbol with
  | none => Except.error (MissingFieldError.keyError "symbol")
  | some token_symbol =>
  match t.current_price with
  | none => Except.error (MissingFieldError.keyError "current_price")
  | some cp =>
  match t.ath with
  | none => Except.error (MissingFieldError.keyError "ath")
  | some ath_price =>
  match t.total_volume with
  | none => Except.error (MissingFieldError.keyError "total_volume")
  | some volume =>
  match t.market_cap with
  | none => Except.error (MissingFieldError.keyError "market_cap")
  | some cap =>
  match t.price_change_7d with
  | none => Except.error (MissingFieldError.keyError "price_change_percentage_7d_in_currency")
  | some change_7d =>
  Except.ok
    { tokenName := token_name
      symbol := token_symbol.toUpper
      current_price := cp
      ath := ath_price
      potential_gains := calculate_potential_gains cp ath_price
      market_cap := cap
      volume := volume
      price_change_7d := change_7d
      mcVolMetric := mc_vol_metric cap volume }

/-- The processing loop over all fetched tokens (`jupiter.py` lines 67-92,
metric part): the first missing key aborts the whole invocation, as an
uncaught Python exception would. -/
def processTokens : List RawToken → Except MissingFieldError (List ScoredRow)
  | [] => Except.ok []
  | t :: ts =>
    match processToken t with
    | Except.error e => Except.error e
    | Except.ok r =>
      match processTokens ts with
      | Except.error e => Except.error e
      | Except.ok rs => Except.ok (r :: rs)

/-- The three user-supplied thresholds (`jupiter.py` lines 50-52). -/
structure FilterConfig where
  market_cap_min : ℚ
  market_cap_max : ℚ
  volume_min : ℚ
deriving DecidableEq

/-- The filter condition of `jupiter.py` line 81:
`market_cap_min < market_cap < market_cap_max and volume > volume_min and
potential_gains > 1` (the chained comparison is a conjunction of two strict
inequalities). -/
def passesFilter (cfg : FilterConfig) (r : ScoredRow) : Bool :=
  decide (cfg.market_cap_min < r.market_cap ∧ r.market_cap < cfg.market_cap_max ∧
    r.volume > cfg.volume_min ∧ r.potential_gains > 1)

/-- The threshold-filter stage: retain exactly the rows passing line 81's
condition. -/
def filterTokens (cfg : FilterConfig) (rows : List ScoredRow) : List ScoredRow :=
  rows.filter (passesFilter cfg)

/-- Descending order on potential gains: row `a` ranks at or before row `b`
when its gain is at least `b`'s (the `ascending=False` sort key of
`jupiter.py` line 106). -/
def gainsGE (a b : ScoredRow) : Prop := b.potential_gains ≤ a.potential_gains

instance : DecidableRel gainsGE :=
  fun a b => inferInstanceAs (Decidable (b.potential_gains ≤ a.potential_gains))

instance : IsTotal ScoredRow gainsGE :=
  ⟨fun a b => Or.symm (le_total a.potential_gains b.potential_gains)⟩

instance : IsTrans ScoredRow gainsGE :=
  ⟨fun _ _ _ h1 h2 => le_trans h2 h1⟩

/-- Descending order on 7-day price change (`jupiter.py` line 119). -/
def change7dGE (a b : ScoredRow) : Prop := b.price_change_7d ≤ a.price_change_7d

instance : DecidableRel change7dGE :=
  fun a b => inferInstanceAs (Decidable (b.price_change_7d ≤ a.price_change_7d))

instance : IsTotal ScoredRow change7dGE :=
  ⟨fun a b => Or.symm (le_total a.price_change_7d b.price_change_7d)⟩

instance : IsTrans ScoredRow change7dGE :=
  ⟨fun _ _ _ h1 h2 => le_trans h2 h1⟩

/-- Ascending order on the market-cap/volume metric (`jupiter.py` line 131,
`ascending=True`: lowest is best). -/
def mcVolLE (a b : ScoredRow) : Prop := a.mcVolMetric ≤ b.mcVolMetric

instance : DecidableRel mcVolLE :=
  fun a b => inferInstanceAs (Decidable (a.mcVolMetric ≤ b.mcVolMetric))

instance : IsTotal ScoredRow mcVolLE :=
  ⟨fun a b => le_total a.mcVolMetric b.mcVolMetric⟩

instance : IsTrans ScoredRow mcVolLE :=
  ⟨fun _ _ _ h1 h2 => le_trans h1 h2⟩

/-- `df_sorted` before the display cap (`jupiter.py` line 106): sort the
filtered rows by potential gains descending and take the head 30. -/
def df_sorted_gains (rows : List ScoredRow) : List ScoredRow :=
  (List.insertionSort gainsGE rows).take 30

/-- The display cap of `jupiter.py` line 107: replace the potential-gains
value of a row by `min` of it and 1000; every other column is untouched. -/
def capGain (r : ScoredRow) : ScoredRow :=
  { r with potential_gains := min r.potential_gains 1000 }

/-- `df_sorted` as it stands after line 107 (the cap is applied in place to
the already-selected top 30). -/
def df_sorted_capped (rows : List ScoredRow) : List ScoredRow :=
  (df_sorted_gains rows).map capGain

/-- `df_sorted_7d` (`jupiter.py` line 119): top 30 by 7-day price change
descending. -/
def df_sorted_7d (rows : List ScoredRow) : List ScoredRow :=
  (List.insertionSort change7dGE rows).take 30

/-- `df_sorted_mc_vol` (`jupiter.py` line 131): top 30 by market-cap/volume
metric ascending. -/
def df_sorted_mc_vol (rows : List ScoredRow) : List ScoredRow :=
  (List.insertionSort mcVolLE rows).take 30

/-- The `Token` display key of `jupiter.py` line 102:
name, space, open paren, upper-cased symbol, close paren. -/
def displayKey (r : ScoredRow) : String :=
  r.tokenName ++ " (" ++ r.symbol ++ ")"

/-- The set of display keys of a list of rows (Python `set(df[..]["Token"])`). -/
def keySet (rows : List ScoredRow) : Finset String :=
  (rows.map displayKey).toFinset

/-- `tokens_in_all_plots` (`jupiter.py` line 142):
`set(A).intersection(B, C)`. -/
def tokens_in_all_plots (A B C : Finset String) : Finset String :=
  A ∩ B ∩ C

/-- `tokens_in_two_plots` (`jupiter.py` lines 152-156):
`set(A).intersection(B).union(set(B).intersection(C)).union(set(C).intersection(A))
  .difference(tokens_in_all_plots)`. -/
def tokens_in_two_plots (A B C : Finset String) : Finset String :=
  ((A ∩ B) ∪ (B ∩ C) ∪ (C ∩ A)) \ tokens_in_all_plots A B C

/-- The all-three consensus set the program computes for a filtered dataset:
note the first argument is the key set of the CAPPED `df_sorted` (the cap at
line 107 mutates the frame used at line 142). -/
def all_three_of (rows : List ScoredRow) : Finset String :=
  tokens_in_all_plots (keySet (df_sorted_capped rows)) (keySet (df_sorted_7d rows))
    (keySet (df_sorted_mc_vol rows))

/-- The exactly-two consensus set the program computes for a filtered
dataset. -/
def exactly_two_of (rows : List ScoredRow) : Finset String :=
  tokens_in_two_plots (keySet (df_sorted_capped rows)) (keySet (df_sorted_7d rows))
    (keySet (df_sorted_mc_vol rows))

/-- The all-three consensus set computed from the un-capped potential-gain
top 30 (the comparison point for the display-only-cap claim). -/
def all_three_uncapped (rows : List ScoredRow) : Finset String :=
  tokens_in_all_plots (keySet (df_sorted_gains rows)) (keySet (df_sorted_7d rows))
    (keySet (df_sorted_mc_vol rows))

/-- The exactly-two consensus set computed from the un-capped potential-gain
top 30. -/
def exactly_two_uncapped (rows : List ScoredRow) : Finset String :=
  tokens_in_two_plots (keySet (df_sorted_gains rows)) (keySet (df_sorted_7d rows))
    (keySet (df_sorted_mc_vol rows))

/-- Sample raw record with upper-case stablecoin symbol, for the
case-sensitivity analysis. -/
def tetherUpper : RawToken :=
  { name := some "Tether"
    symbol := some "USDT"
    current_price := some 1
    ath := some 1
    total_volume := some 1
    market_cap := some 1
    price_change_7d := some 0 }

/-- Sample raw record with lower-case stablecoin symbol. -/
def tetherLower : RawToken :=
  { tetherUpper with symbol := some "usdt" }

/-- Sample raw record whose symbol merely extends a stablecoin symbol. -/
def usdtxToken : RawToken :=
  { tetherUpper with symbol := some "usdtx" }

/-- Sample raw record lacking the `current_price` key. -/
def missingPriceToken : RawToken :=
  { name := some "Broken"
    symbol := some "brk"
    current_price := none
    ath := some 2
    total_volume := some 3
    market_cap := some 4
    price_change_7d := some 5 }

/-- Sample scored row. -/
def rowAlpha : ScoredRow :=
  { tokenName := "Alpha"
    symbol := "AAA"
    current_price := 2
    ath := 10
    potential_gains := 5
    market_cap := 100
    volume := 7
    price_change_7d := 3
    mcVolMetric := 100 / 7 }

/-- Second sample scored row. -/
def rowBeta : ScoredRow :=
  { tokenName := "Beta"
    symbol := "BBB"
    current_price := 1
    ath := 3
    potential_gains := 3
    market_cap := 50
    volume := 9
    price_change_7d := 8
    mcVolMetric := 50 / 9 }

/-- Sample threshold configuration. -/
def cfgSample : FilterConfig :=
  { market_cap_min := 10, market_cap_max := 1000, volume_min := 1 }

/-- Sample scored row sitting exactly at the potential-gain boundary. -/
def rowGainOne : ScoredRow :=
  { rowAlpha with potential_gains := 1 }

/-- Claim C5: for all inputs, the potential-gain computation returns
`ath / price` when `price > 0` and exactly `0` when `price = 0`. -/
theorem potential_gain_cases (price ath : ℚ) :
    (price > 0 → calculate_potential_gains price ath = ath / price) ∧
    (price = 0 → calculate_potential_gains price ath = 0) := by
  constructor
  · intro h
    simp [calculate_potential_gains, h]
  · intro h
    simp [calculate_potential_gains, h]

/-- Witness for C5 at price 2, ath 10 (positive branch) and price 0, ath 7
(zero branch). -/
theorem potential_gain_cases_witness :
    calculate_potential_gains 2 10 = 10 / 2 ∧ calculate_potential_gains 0 7 = 0 :=
  ⟨(potential_gain_cases 2 10).1 (by norm_num), (potential_gain_cases 0 7).2 rfl⟩

/-- Claim C6: the market-cap/volume computation returns `cap / vol` when
`vol > 0` and exactly `0` when `vol = 0`; a zero-volume asset's value `0` is
at most every value arising from non-negative cap and volume, hence lowest
(best) in the ascending ranking. -/
theorem mc_vol_metric_cases (cap vol : ℚ) :
    (vol > 0 → mc_vol_metric cap vol = cap / vol) ∧
    (vol = 0 → mc_vol_metric cap vol = 0) ∧
    (∀ cap2 vol2 : ℚ, 0 ≤ cap2 → 0 ≤ vol2 →
      mc_vol_metric cap 0 ≤ mc_vol_metric cap2 vol2) := by
  refine ⟨fun h => by simp [mc_vol_metric, h], fun h => by simp [mc_vol_metric, h], ?_⟩
  intro cap2 vol2 hc hv
  have h0 : mc_vol_metric cap 0 = 0 := by simp [mc_vol_metric]
  rw [h0]
  unfold mc_vol_metric
  split
  · exact div_nonneg hc hv
  · exact le_refl 0

/-- Witness for C6 at cap 100, vol 7 (positive branch), vol 0 (zero branch),
and comparison against the row values cap2 3, vol2 4. -/
theorem mc_vol_metric_cases_witness :
    mc_vol_metric 100 7 = 100 / 7 ∧ mc_vol_metric 5 0 = 0 ∧
    mc_vol_metric 5 0 ≤ mc_vol_metric 3 4 :=
  ⟨(mc_vol_metric_cases 100 7).1 (by norm_num), (mc_vol_metric_cases 5 0).2.1 rfl,
   (mc_vol_metric_cases 5 0).2.2 3 4 (by norm_num) (by norm_num)⟩

/-- Claim C10: non-positive denominators take the sentinel branch: a negative
(or zero) current price yields potential gain `0`, and a negative (or zero)
volume yields market-cap/volume value `0`; the division branch is only ever
taken with a strictly positive denominator. -/
theorem nonpositive_denominator_sentinel (price ath cap vol : ℚ) :
    (price < 0 → calculate_potential_gains price ath = 0) ∧
    (vol < 0 → mc_vol_metric cap vol = 0) ∧
    (price ≤ 0 → calculate_potential_gains price ath = 0) ∧
    (vol ≤ 0 → mc_vol_metric cap vol = 0) := by
  refine ⟨fun h => ?_, fun h => ?_, fun h => ?_, fun h => ?_⟩
  · simp [calculate_potential_gains, not_lt.mpr (le_of_lt h)]
  · simp [mc_vol_metric, not_lt.mpr (le_of_lt h)]
  · simp [calculate_potential_gains, not_lt.mpr h]
  · simp [mc_vol_metric, not_lt.mpr h]

/-- Witness for C10 at price -3 and volume -2. -/
theorem nonpositive_denominator_sentinel_witness :
    calculate_potential_gains (-3) 10 = 0 ∧ mc_vol_metric 10 (-2) = 0 :=
  ⟨(nonpositive_denominator_sentinel (-3) 10 10 (-2)).1 (by norm_num),
   (nonpositive_denominator_sentinel (-3) 10 10 (-2)).2.1 (by norm_num)⟩

/-- Claim C4: the threshold filter retains a row iff it was present and
satisfies the three strict bounds plus `potential_gains > 1`; rows exactly at
a market-cap or volume boundary, or with gain exactly `1`, are excluded. -/
theorem threshold_filter_strict (cfg : FilterConfig) (rows : List ScoredRow) (r : ScoredRow) :
    (r ∈ filterTokens cfg rows ↔
      r ∈ rows ∧ (cfg.market_cap_min < r.market_cap ∧ r.market_cap < cfg.market_cap_max ∧
        r.volume > cfg.volume_min ∧ r.potential_gains > 1)) ∧
    (r.market_cap = cfg.market_cap_min → r ∉ filterTokens cfg rows) ∧
    (r.market_cap = cfg.market_cap_max → r ∉ filterTokens cfg rows) ∧
    (r.volume = cfg.volume_min → r ∉ filterTokens cfg rows) ∧
    (r.potential_gains = 1 → r ∉ filterTokens cfg rows) := by
  have hmem : r ∈ filterTokens cfg rows ↔
      r ∈ rows ∧ (cfg.market_cap_min < r.market_cap ∧ r.market_cap < cfg.market_cap_max ∧
        r.volume > cfg.volume_min ∧ r.potential_gains > 1) := by
    simp [filterTokens, passesFilter, List.mem_filter]
  refine ⟨hmem, fun he hin => ?_, fun he hin => ?_, fun he hin => ?_, fun he hin => ?_⟩
  · exact absurd ((hmem.mp hin).2.1) (by rw [he]; exact lt_irrefl _)
  · exact absurd ((hmem.mp hin).2.2.1) (by rw [he]; exact lt_irrefl _)
  · exact absurd ((hmem.mp hin).2.2.2.1) (by rw [he]; exact lt_irrefl _)
  · exact absurd ((hmem.mp hin).2.2.2.2) (by rw [he]; exact lt_irrefl _)

/-- Witness for C4: `rowAlpha` passes the sample thresholds; the row with
gain exactly 1 is excluded. -/
theorem threshold_filter_strict_witness :
    rowAlpha ∈ filterTokens cfgSample [rowAlpha, rowGainOne] ∧
    rowGainOne ∉ filterTokens cfgSample [rowAlpha, rowGainOne] :=
  ⟨(threshold_filter_strict cfgSample [rowAlpha, rowGainOne] rowAlpha).1.mpr
      ⟨by simp, by norm_num [rowAlpha, cfgSample]⟩,
   (threshold_filter_strict cfgSample [rowAlpha, rowGainOne] rowGainOne).2.2.2.2 rfl⟩

/-- Claim C7: the threshold filter is idempotent and never enlarges its
input. -/
theorem threshold_filter_idempotent (cfg : FilterConfig) (rows : List ScoredRow) :
    filterTokens cfg (filterTokens cfg rows) = filterTokens cfg rows ∧
    (filterTokens cfg rows).length ≤ rows.length := by
  constructor
  · simp [filterTokens, List.filter_filter]
  · exact List.length_filter_le _ _

/-- Counterexample to claim C1: the source compares symbols verbatim, so a
record with the upper-case symbol `"USDT"` is NOT discarded by normalization
(it survives the stablecoin filter), contradicting the claimed
case-insensitive exclusion. -/
theorem stablecoin_uppercase_survives :
    isKept (RawEntry.record tetherUpper) = true ∧
    filtered_tokens [RawEntry.record tetherUpper] = [RawEntry.record tetherUpper] := by
  constructor
  · decide
  · decide

/-- Claim C1 as amended: stablecoin exclusion is exact-match and
case-SENSITIVE: a well-formed record is discarded on stablecoin grounds iff
its symbol string is verbatim one of `usdt, usdc, dai, busd, ust`; in
particular `"usdt"` is discarded while `"USDT"`, mixed-case forms and
`"usdtx"` are kept. -/
theorem stablecoin_exclusion_exact_case_sensitive (t : RawToken) (s : String)
    (hs : t.symbol = some s) :
    isKept (RawEntry.record t) = false ↔ s ∈ stablecoins := by
  simp [isKept, hs]

/-- Witness for amended C1: the lower-case record is discarded, the `usdtx`
record is kept. -/
theorem stablecoin_exclusion_exact_case_sensitive_witness :
    (isKept (RawEntry.record tetherLower) = false ↔ "usdt" ∈ stablecoins) ∧
    (isKept (RawEntry.record usdtxToken) = false ↔ "usdtx" ∈ stablecoins) :=
  ⟨stablecoin_exclusion_exact_case_sensitive tetherLower "usdt" rfl,
   stablecoin_exclusion_exact_case_sensitive usdtxToken "usdtx" rfl⟩

/-- The display cap only rewrites the potential-gains column, so it leaves
every row's display key unchanged. -/
theorem keySet_map_capGain (l : List ScoredRow) :
    keySet (l.map capGain) = keySet l := by
  unfold keySet
  rw [List.map_map]
  have h : displayKey ∘ capGain = displayKey := funext fun r => rfl
  rw [h]

/-- Claim C2: the 1000x display cap, applied after the top-30 ranking, does
not change the potential-gain top-30 membership, and the consensus sets the
program computes from the capped frame equal those computed from the
un-capped potential-gain top 30. -/
theorem display_cap_preserves_consensus (rows : List ScoredRow) :
    keySet (df_sorted_capped rows) = keySet (df_sorted_gains rows) ∧
    all_three_of rows = all_three_uncapped rows ∧
    exactly_two_of rows = exactly_two_uncapped rows := by
  have h : keySet (df_sorted_capped rows) = keySet (df_sorted_gains rows) :=
    keySet_map_capGain (df_sorted_gains rows)
  refine ⟨h, ?_, ?_⟩
  · unfold all_three_of all_three_uncapped
    rw [h]
  · unfold exactly_two_of exactly_two_uncapped
    rw [h]

/-- Claim C3: the consensus outputs satisfy the stated intersection and
union-minus-intersection formulas, and the all-three and exactly-two sets
are disjoint. -/
theorem consensus_formulas_disjoint (A B C : Finset String) :
    tokens_in_all_plots A B C = A ∩ B ∩ C ∧
    tokens_in_two_plots A B C = ((A ∩ B) ∪ (B ∩ C) ∪ (C ∩ A)) \ (A ∩ B ∩ C) ∧
    Disjoint (tokens_in_all_plots A B C) (tokens_in_two_plots A B C) := by
  refine ⟨rfl, rfl, ?_⟩
  exact Finset.disjoint_sdiff

/-- Claim C8: each of the three rankings returns at most 30 elements, each
is sorted by its metric, and when the filtered input has at most 30 rows the
ranking returns the whole sorted input (a permutation of the input, in
sorted order). -/
theorem ranking_topK_bound (rows : List ScoredRow) :
    (df_sorted_gains rows).length ≤ 30 ∧
    (df_sorted_7d rows).length ≤ 30 ∧
    (df_sorted_mc_vol rows).length ≤ 30 ∧
    List.Sorted gainsGE (df_sorted_gains rows) ∧
    List.Sorted change7dGE (df_sorted_7d rows) ∧
    List.Sorted mcVolLE (df_sorted_mc_vol rows) ∧
    (rows.length ≤ 30 →
      df_sorted_gains rows = List.insertionSort gainsGE rows ∧
      (df_sorted_gains rows).Perm rows ∧
      df_sorted_7d rows = List.insertionSort change7dGE rows ∧
      (df_sorted_7d rows).Perm rows ∧
      df_sorted_mc_vol rows = List.insertionSort mcVolLE rows ∧
      (df_sorted_mc_vol rows).Perm rows) := by
  have hlen : ∀ l : List ScoredRow, (l.take 30).length ≤ 30 := fun l => by
    rw [List.length_take]
    exact Nat.min_le_left _ _
  have htake : ∀ (r : ScoredRow → ScoredRow → Prop) (inst : DecidableRel r),
      rows.length ≤ 30 → (List.insertionSort r rows).take 30 = List.insertionSort r rows :=
    fun r inst h => List.take_of_length_le (by rw [List.length_insertionSort]; exact h)
  refine ⟨hlen _, hlen _, hlen _, ?_, ?_, ?_, fun h => ?_⟩
  · exact List.Pairwise.sublist (List.take_sublist _ _) (List.sorted_insertionSort _ rows)
  · exact List.Pairwise.sublist (List.take_sublist _ _) (List.sorted_insertionSort _ rows)
  · exact List.Pairwise.sublist (List.take_sublist _ _) (List.sorted_insertionSort _ rows)
  · have h1 := htake gainsGE inferInstance h
    have h2 := htake change7dGE inferInstance h
    have h3 := htake mcVolLE inferInstance h
    exact ⟨h1, by rw [df_sorted_gains, h1]; exact List.perm_insertionSort _ _,
      h2, by rw [df_sorted_7d, h2]; exact List.perm_insertionSort _ _,
      h3, by rw [df_sorted_mc_vol, h3]; exact List.perm_insertionSort _ _⟩

/-- Witness for C8 on a concrete two-row input (length 2 is at most 30). -/
theorem ranking_topK_bound_witness :
    (df_sorted_gains [rowAlpha, rowBeta]).length ≤ 30 ∧
    df_sorted_gains [rowAlpha, rowBeta] = List.insertionSort gainsGE [rowAlpha, rowBeta] :=
  ⟨(ranking_topK_bound [rowAlpha, rowBeta]).1,
   ((ranking_topK_bound [rowAlpha, rowBeta]).2.2.2.2.2.2 (by decide)).1⟩

/-- If the per-token processing succeeds, every required numeric field was
present on the raw record. -/
theorem processToken_ok_fields (t : RawToken) (r : ScoredRow)
    (h : processToken t = Except.ok r) :
    t.current_price ≠ none ∧ t.ath ≠ none ∧ t.total_volume ≠ none ∧
    t.market_cap ≠ none ∧ t.price_change_7d ≠ none := by
  obtain ⟨nm, sy, pr, athp, vol, cap, ch⟩ := t
  cases nm <;> cases sy <;> cases pr <;> cases athp <;> cases vol <;> cases cap <;> cases ch <;>
    simp_all [processToken]

/-- If some member of the token list fails per-token processing, the whole
processing loop fails (the first such failure aborts the invocation). -/
theorem processTokens_error_of_mem (l : List RawToken) (t : RawToken) (ht : t ∈ l)
    (he : ∃ e, processToken t = Except.error e) :
    ∃ e, processTokens l = Except.error e := by
  induction l with
  | nil => exact absurd ht (List.not_mem_nil t)
  | cons a as ih =>
    cases hpa : processToken a with
    | error e => exact ⟨e, by simp [processTokens, hpa]⟩
    | ok r =>
      rcases List.mem_cons.mp ht with rfl | hmem
      · obtain ⟨e, he⟩ := he
        rw [hpa] at he
        exact absurd he (by simp)
      · obtain ⟨e2, h2⟩ := ih hmem
        exact ⟨e2, by simp [processTokens, hpa, h2]⟩

/-- Claim C9: a record that reaches metric computation while lacking a
required numeric field makes the per-token step fail with a
`MissingFieldError`, and that failure is fatal to the whole invocation: the
processing of the full list fails rather than recovering or silently
dropping the record. -/
theorem missing_numeric_field_fatal (t : RawToken) (l : List RawToken) (ht : t ∈ l)
    (hmiss : t.current_price = none ∨ t.ath = none ∨ t.total_volume = none ∨
      t.market_cap = none ∨ t.price_change_7d = none) :
    (∃ e, processToken t = Except.error e) ∧
    (∃ e, processTokens l = Except.error e) := by
  have hpt : ∃ e, processToken t = Except.error e := by
    cases hres : processToken t with
    | error e => exact ⟨e, rfl⟩
    | ok r =>
      obtain ⟨h1, h2, h3, h4, h5⟩ := processToken_ok_fields t r hres
      rcases hmiss with h | h | h | h | h
      · exact absurd h h1
      · exact absurd h h2
      · exact absurd h h3
      · exact absurd h h4
      · exact absurd h h5
  exact ⟨hpt, processTokens_error_of_mem l t ht hpt⟩

/-- Witness for C9: the sample record lacking `current_price` aborts the
processing of the singleton list. -/
theorem missing_numeric_field_fatal_witness :
    (∃ e, processToken missingPriceToken = Except.error e) ∧
    (∃ e, processTokens [missingPriceToken] = Except.error e) :=
  missing_numeric_field_fatal missingPriceToken [missingPriceToken]
    (List.mem_singleton_self _) (Or.inl rfl)

end SolSeek
